import Mathlib

/-!
Shallow embedding of `src/js/kv_bulk.js` (function `kv_bulk_get`) and proofs
of the specified properties of the bulk key-value fetcher.

The JavaScript source is:

  export async function kv_bulk_get(kv, keys, type = "text", withMetadata = false) {
    if (!kv || typeof kv.get !== "function") throw new Error(`KV namespace not valid`);
    if (!Array.isArray(keys)) throw new Error("keys must be an array of strings");
    if (withMetadata) {
      const map = await kv.getWithMetadata(keys, {type});
      return Object.fromEntries(map);
    } else {
      const map = await kv.get(keys, {type});
      return Object.fromEntries(map);
    }
  }

Modelling choices:
* `JSVal` is a first-order model of the JavaScript values this module can
  touch (null, undefined, booleans, numbers, strings, arrays, plain objects).
* The `kv` argument is either `missing` (a falsy argument such as `null` or
  `undefined`, rejected by the `!kv` guard) or a handle carrying the two
  optional bulk-read members.  A member being `none` models
  `typeof kv.<member> !== "function"`.
* The store's bulk reads return a `Map<string, ·>`, modelled as a list of
  key/value pairs in iteration order (`JSMap`).  A JavaScript `Map` cannot
  hold a duplicate key, so theorems about pass-through take the `Nodup`
  invariant of the key column as a hypothesis.
* A thrown exception is a `JSVal` (JavaScript throws arbitrary values);
  `Except.error e` is the exception `e` reaching the caller.  The two
  validation errors and the `TypeError` raised when `kv.getWithMetadata` is
  invoked while absent are concrete `Error`-shaped objects.
* The semantics is instrumented: the second component of the result is the
  list of bulk-read calls actually issued to the store, in order, with the
  exact arguments, so that claims of the form "issues no store call" /
  "issues exactly one store call" are statable.
* `Object.fromEntries` is modelled faithfully: entries are folded left to
  right; a duplicate key overwrites the value at the key's first position.
-/

namespace KVBulk

/-- A JavaScript value, restricted to the shapes this module manipulates. -/
inductive JSVal where
  | vNull
  | vUndefined
  | vBool (b : Bool)
  | vNum (n : Int)
  | vStr (s : String)
  | vArr (elems : List JSVal)
  | vObj (fields : List (String × JSVal))

/-- `Array.isArray`. -/
def JSVal.isArray : JSVal → Bool
  | .vArr _ => true
  | _ => false

/-- A JavaScript `Map<string, ·>` (or a plain object), as a list of entries in
iteration order. -/
abbrev JSMap := List (String × JSVal)

/-- A bulk-read member of the KV namespace: given the `keys` argument and the
options object, it either throws a `JSVal` or returns a `Map`. -/
abbrev BulkRead := JSVal → JSVal → Except JSVal JSMap

/-- The KV namespace object.  A member is `some f` exactly when the
corresponding property is a callable function. -/
structure KVNamespace where
  get? : Option BulkRead
  getWithMetadata? : Option BulkRead

/-- The `kv` argument: `missing` models a falsy argument (`null`/`undefined`)
caught by the `!kv` guard. -/
inductive KVArg where
  | missing
  | handle (ns : KVNamespace)

/-- One bulk-read call issued to the store, with its exact arguments. -/
inductive StoreCall where
  | callGet (keys opts : JSVal)
  | callGetWithMetadata (keys opts : JSVal)

/-- Does the object have a property named `k`? -/
def hasKey (o : JSMap) (k : String) : Bool :=
  o.any fun p => p.1 == k

/-- `CreateDataProperty` on a plain object: a duplicate key overwrites in
place (keeping the key's original position), a fresh key is appended. -/
def setField (o : JSMap) (k : String) (v : JSVal) : JSMap :=
  if hasKey o k then o.map (fun p => if p.1 == k then (k, v) else p)
  else o ++ [(k, v)]

/-- `Object.fromEntries`: fold the entries left to right into a fresh object. -/
def fromEntries (entries : JSMap) : JSMap :=
  entries.foldl (fun o p => setField o p.1 p.2) []

/-- The options object `{type}`, i.e. `{type: type}`. -/
def optsObj (ty : JSVal) : JSVal :=
  .vObj [("type", ty)]

/-- A JavaScript error object with the given constructor name and message. -/
def jsError (name msg : String) : JSVal :=
  .vObj [("name", .vStr name), ("message", .vStr msg)]

/-- `new Error("KV namespace not valid")` thrown by the handle guard. -/
def invalidStoreError : JSVal := jsError "Error" "KV namespace not valid"

/-- `new Error("keys must be an array of strings")` thrown by the keys guard. -/
def invalidKeyListError : JSVal := jsError "Error" "keys must be an array of strings"

/-- The `TypeError` the runtime throws when `kv.getWithMetadata(…)` is
invoked while `kv.getWithMetadata` is not a function. -/
def getWithMetadataNotAFunction : JSVal :=
  jsError "TypeError" "kv.getWithMetadata is not a function"

/-- The embedding of `kv_bulk_get`.  Returns the result (normal value or
thrown exception) together with the trace of store calls issued. -/
def kv_bulk_get (kv : KVArg) (keys : JSVal)
    (type : JSVal := .vStr "text") (withMetadata : Bool := false) :
    Except JSVal JSMap × List StoreCall :=
  match kv with
  | .missing => (.error invalidStoreError, [])
  | .handle ns =>
    match ns.get? with
    | none => (.error invalidStoreError, [])
    | some get =>
      if keys.isArray then
        if withMetadata then
          match ns.getWithMetadata? with
          | none => (.error getWithMetadataNotAFunction, [])
          | some getWithMetadata =>
            match getWithMetadata keys (optsObj type) with
            | .error e => (.error e, [.callGetWithMetadata keys (optsObj type)])
            | .ok map => (.ok (fromEntries map), [.callGetWithMetadata keys (optsObj type)])
        else
          match get keys (optsObj type) with
          | .error e => (.error e, [.callGet keys (optsObj type)])
          | .ok map => (.ok (fromEntries map), [.callGet keys (optsObj type)])
      else (.error invalidKeyListError, [])

/-! ### Behaviour of `fromEntries` on duplicate-free entry lists -/

theorem hasKey_eq_false_of_not_mem (o : JSMap) (k : String)
    (h : k ∉ o.map Prod.fst) : hasKey o k = false := by
  rw [hasKey, List.any_eq_false]
  intro p hp
  simp only [beq_iff_eq]
  intro hk
  exact h (List.mem_map.mpr ⟨p, hp, hk⟩)

theorem setField_of_not_mem (o : JSMap) (k : String) (v : JSVal)
    (h : k ∉ o.map Prod.fst) : setField o k v = o ++ [(k, v)] := by
  rw [setField, hasKey_eq_false_of_not_mem o k h]
  simp

theorem foldl_setField_of_nodup (m : JSMap) :
    ∀ acc : JSMap, (∀ k ∈ m.map Prod.fst, k ∉ acc.map Prod.fst) →
      (m.map Prod.fst).Nodup →
      m.foldl (fun o p => setField o p.1 p.2) acc = acc ++ m := by
  induction m with
  | nil => intro acc _ _; simp
  | cons p t ih =>
    intro acc hdis hnd
    have hk : p.1 ∉ acc.map Prod.fst := hdis p.1 (by simp)
    have hstep : setField acc p.1 p.2 = acc ++ [p] := by
      rw [setField_of_not_mem acc p.1 p.2 hk]
    rw [List.foldl_cons, hstep,
      ih (acc ++ [p]) ?_ (by simpa using hnd.of_cons), List.append_assoc]
    · simp
    · intro k hkt
      simp only [List.map_append, List.mem_append]
      rintro (hacc | hp)
      · exact hdis k (by simp [hkt]) hacc
      · have : k = p.1 := by simpa using hp
        subst this
        have := List.map_cons Prod.fst p t ▸ hnd
        exact (List.nodup_cons.mp (by simpa using hnd)).1 hkt

/-- On a duplicate-free entry list (every JavaScript `Map`), `fromEntries` is
the identity reshape: same entries, same order. -/
theorem fromEntries_of_nodup (m : JSMap) (h : (m.map Prod.fst).Nodup) :
    fromEntries m = m := by
  rw [fromEntries, foldl_setField_of_nodup m [] (by simp) h]
  simp

/-! ### Concrete stores used by witnesses and counterexamples -/

/-- A concrete value-only bulk-read response: two present keys and one
absence marker (`null`). -/
def demoMap : JSMap := [("a", .vStr "1"), ("b", .vStr "2"), ("c", .vNull)]

/-- A concrete value-only bulk read that succeeds with `demoMap`. -/
def demoGet : BulkRead := fun _ _ => .ok demoMap

/-- A concrete combined value+metadata response. -/
def demoMetaMap : JSMap :=
  [("a", .vObj [("value", .vStr "1"), ("metadata", .vObj [("tag", .vStr "ma")])]),
   ("b", .vObj [("value", .vStr "2"), ("metadata", .vNull)]),
   ("c", .vNull)]

/-- A concrete combined value+metadata bulk read that succeeds with
`demoMetaMap`. -/
def demoGetWithMetadata : BulkRead := fun _ _ => .ok demoMetaMap

/-- A concrete bulk read that fails (e.g. a quota error from the store). -/
def failingRead : BulkRead := fun _ _ => .error (.vStr "quota exceeded")

/-- A concrete bulk read that accepts an empty batch and returns an empty
map. -/
def emptyGet : BulkRead := fun _ _ => .ok []

/-- The two guard errors are distinct exception values. -/
theorem invalidStoreError_ne_invalidKeyListError :
    invalidStoreError ≠ invalidKeyListError := by
  simp [invalidStoreError, invalidKeyListError, jsError]

/-- The call-site `TypeError` is distinct from the handle-guard error. -/
theorem getWithMetadataNotAFunction_ne_invalidStoreError :
    getWithMetadataNotAFunction ≠ invalidStoreError := by
  simp [getWithMetadataNotAFunction, invalidStoreError, jsError]

/-! ### The claims -/

/-- Claim C1: with `includeMetadata=false`, the result is the store's
value-only response passed through identically — same key set, same value
for every key (absence markers such as `null` included) — and exactly the
one value-only store call is issued. -/
theorem kv_bulk_get_value_only_pass_through
    (get : BulkRead) (mw : Option BulkRead) (ks : List JSVal) (ty : JSVal)
    (m : JSMap)
    (hres : get (.vArr ks) (optsObj ty) = .ok m)
    (hnd : (m.map Prod.fst).Nodup) :
    kv_bulk_get (.handle ⟨some get, mw⟩) (.vArr ks) ty false =
      (.ok m, [.callGet (.vArr ks) (optsObj ty)]) := by
  simp [kv_bulk_get, JSVal.isArray, hres, fromEntries_of_nodup m hnd]

/-- Witness for C1 at a concrete store and key list. -/
theorem kv_bulk_get_value_only_pass_through_witness :
    demoGet (.vArr [.vStr "a", .vStr "b", .vStr "c"]) (optsObj (.vStr "text")) =
      .ok demoMap ∧
    (demoMap.map Prod.fst).Nodup ∧
    kv_bulk_get (.handle ⟨some demoGet, none⟩)
        (.vArr [.vStr "a", .vStr "b", .vStr "c"]) (.vStr "text") false =
      (.ok demoMap,
       [.callGet (.vArr [.vStr "a", .vStr "b", .vStr "c"]) (optsObj (.vStr "text"))]) :=
  ⟨rfl, by decide,
   kv_bulk_get_value_only_pass_through demoGet none _ _ demoMap rfl (by decide)⟩

/-- Claim C2: with `includeMetadata=true`, each key of the store's combined
value+metadata response is mapped to the exact composite entry the store
returned for it, unmodified. -/
theorem kv_bulk_get_metadata_pass_through
    (get gwm : BulkRead) (ks : List JSVal) (ty : JSVal) (m : JSMap)
    (hres : gwm (.vArr ks) (optsObj ty) = .ok m)
    (hnd : (m.map Prod.fst).Nodup) :
    kv_bulk_get (.handle ⟨some get, some gwm⟩) (.vArr ks) ty true =
      (.ok m, [.callGetWithMetadata (.vArr ks) (optsObj ty)]) := by
  simp [kv_bulk_get, JSVal.isArray, hres, fromEntries_of_nodup m hnd]

/-- Witness for C2 at a concrete store and key list. -/
theorem kv_bulk_get_metadata_pass_through_witness :
    demoGetWithMetadata (.vArr [.vStr "a", .vStr "b", .vStr "c"])
        (optsObj (.vStr "text")) = .ok demoMetaMap ∧
    (demoMetaMap.map Prod.fst).Nodup ∧
    kv_bulk_get (.handle ⟨some demoGet, some demoGetWithMetadata⟩)
        (.vArr [.vStr "a", .vStr "b", .vStr "c"]) (.vStr "text") true =
      (.ok demoMetaMap,
       [.callGetWithMetadata (.vArr [.vStr "a", .vStr "b", .vStr "c"])
          (optsObj (.vStr "text"))]) :=
  ⟨rfl, by decide,
   kv_bulk_get_metadata_pass_through demoGet demoGetWithMetadata _ _ demoMetaMap
     rfl (by decide)⟩

/-- Claim C3: when the selected store call fails, the exception reaches the
caller as the very value the store threw — not caught, wrapped or retried —
and no (partial) result mapping is produced; the trace records the single
call that was issued. -/
theorem kv_bulk_get_propagates_store_error
    (get gwm : BulkRead) (ks : List JSVal) (ty : JSVal) (wm : Bool) (e : JSVal)
    (hfail : (if wm then gwm else get) (.vArr ks) (optsObj ty) = .error e) :
    kv_bulk_get (.handle ⟨some get, some gwm⟩) (.vArr ks) ty wm =
      (.error e,
       [if wm then StoreCall.callGetWithMetadata (.vArr ks) (optsObj ty)
        else StoreCall.callGet (.vArr ks) (optsObj ty)]) := by
  cases wm <;> simp only [if_true, if_false, Bool.false_eq_true] at hfail ⊢ <;>
    simp [kv_bulk_get, JSVal.isArray, hfail]

/-- Witness for C3: a store whose combined read throws. -/
theorem kv_bulk_get_propagates_store_error_witness :
    (if true then failingRead else demoGet) (.vArr [.vStr "a"])
        (optsObj (.vStr "text")) = .error (.vStr "quota exceeded") ∧
    kv_bulk_get (.handle ⟨some demoGet, some failingRead⟩)
        (.vArr [.vStr "a"]) (.vStr "text") true =
      (.error (.vStr "quota exceeded"),
       [if true then StoreCall.callGetWithMetadata (.vArr [.vStr "a"])
            (optsObj (.vStr "text"))
        else StoreCall.callGet (.vArr [.vStr "a"]) (optsObj (.vStr "text"))]) :=
  ⟨rfl,
   kv_bulk_get_propagates_store_error demoGet failingRead _ _ true
     (.vStr "quota exceeded") rfl⟩

/-- Claim C4 counterexample: the handle guard runs first, so for an invalid
store together with a non-array `keys`, the call fails with the
store-handle error, not the key-list error the claim requires for every
store. -/
theorem kv_bulk_get_missing_store_beats_bad_keys :
    kv_bulk_get .missing (.vStr "k") (.vStr "text") false =
      (.error invalidStoreError, []) ∧
    invalidStoreError ≠ invalidKeyListError :=
  ⟨rfl, invalidStoreError_ne_invalidKeyListError⟩

/-- Claim C4 (amended): for every store handle that passes the handle guard
(callable value-only read), a non-array `keys` fails with the key-list
error and no store call is issued, for every `includeMetadata` /
`decodeFormat` choice. -/
theorem kv_bulk_get_invalid_keys_rejected
    (get : BulkRead) (mw : Option BulkRead) (keys ty : JSVal) (wm : Bool)
    (hk : keys.isArray = false) :
    kv_bulk_get (.handle ⟨some get, mw⟩) keys ty wm =
      (.error invalidKeyListError, []) := by
  simp [kv_bulk_get, hk]

/-- Witness for the amended C4: a single string as `keys`. -/
theorem kv_bulk_get_invalid_keys_rejected_witness :
    (JSVal.vStr "k").isArray = false ∧
    kv_bulk_get (.handle ⟨some demoGet, none⟩) (.vStr "k") (.vStr "text") true =
      (.error invalidKeyListError, []) :=
  ⟨rfl, kv_bulk_get_invalid_keys_rejected demoGet none _ _ true rfl⟩

/-- Claim C5: a missing (`null`/`undefined`) store argument, or one whose
value-only bulk-read member is not callable, fails with the store-handle
error and issues no store call, for every `keys`, `decodeFormat` and
`includeMetadata`. -/
theorem kv_bulk_get_invalid_store_rejected
    (mw : Option BulkRead) (keys ty : JSVal) (wm : Bool) :
    kv_bulk_get .missing keys ty wm = (.error invalidStoreError, []) ∧
    kv_bulk_get (.handle ⟨none, mw⟩) keys ty wm =
      (.error invalidStoreError, []) :=
  ⟨rfl, rfl⟩

/-- Claim C6 counterexample: an array containing a non-string element (the
number 5) is not rejected — the guard only checks `Array.isArray` — and the
store call is issued with that element forwarded verbatim. -/
theorem kv_bulk_get_nonstring_element_accepted :
    kv_bulk_get (.handle ⟨some demoGet, none⟩) (.vArr [.vNum 5])
        (.vStr "text") false =
      (.ok demoMap, [.callGet (.vArr [.vNum 5]) (optsObj (.vStr "text"))]) ∧
    (Except.ok demoMap : Except JSVal JSMap) ≠ .error invalidKeyListError ∧
    [StoreCall.callGet (.vArr [.vNum 5]) (optsObj (.vStr "text"))] ≠
      ([] : List StoreCall) := by
  refine ⟨?_, by simp, by simp⟩
  simp [kv_bulk_get, demoGet, JSVal.isArray,
    fromEntries_of_nodup demoMap (by decide)]

/-- Claim C6 (amended): the keys guard checks only that `keys` is an array;
element types are never inspected.  For every element list — strings or
not — validation passes and the outcome is exactly the store's response
(reshaped on success, the store's own exception on failure), with the
elements forwarded verbatim in the single store call. -/
theorem kv_bulk_get_keys_elements_unchecked
    (get : BulkRead) (mw : Option BulkRead) (ks : List JSVal) (ty : JSVal) :
    kv_bulk_get (.handle ⟨some get, mw⟩) (.vArr ks) ty false =
      ((get (.vArr ks) (optsObj ty)).map fromEntries,
       [.callGet (.vArr ks) (optsObj ty)]) := by
  cases h : get (.vArr ks) (optsObj ty) <;>
    simp [kv_bulk_get, JSVal.isArray, h, Except.map]

/-- Claim C7: the handle guard tests only the value-only read capability.
A store with a callable value-only read but no combined read passes the
guard on the metadata path and fails only at the call itself (a distinct
`TypeError`, with no store call issued); a store with only the combined
read fails the guard even on the metadata path. -/
theorem kv_bulk_get_validation_asymmetry
    (get gwm : BulkRead) (ks : List JSVal) (keys ty : JSVal) :
    kv_bulk_get (.handle ⟨some get, none⟩) (.vArr ks) ty true =
      (.error getWithMetadataNotAFunction, []) ∧
    getWithMetadataNotAFunction ≠ invalidStoreError ∧
    kv_bulk_get (.handle ⟨none, some gwm⟩) keys ty true =
      (.error invalidStoreError, []) :=
  ⟨by simp [kv_bulk_get, JSVal.isArray],
   getWithMetadataNotAFunction_ne_invalidStoreError, rfl⟩

/-- Claim C8: an empty `keys` array is valid; if the store accepts the empty
batch and returns an empty map, the result is the empty mapping, on both
the value-only and metadata paths. -/
theorem kv_bulk_get_empty_keys
    (get gwm : BulkRead) (ty : JSVal)
    (hg : get (.vArr []) (optsObj ty) = .ok [])
    (hm : gwm (.vArr []) (optsObj ty) = .ok []) :
    kv_bulk_get (.handle ⟨some get, some gwm⟩) (.vArr []) ty false =
      (.ok [], [.callGet (.vArr []) (optsObj ty)]) ∧
    kv_bulk_get (.handle ⟨some get, some gwm⟩) (.vArr []) ty true =
      (.ok [], [.callGetWithMetadata (.vArr []) (optsObj ty)]) := by
  constructor <;> simp [kv_bulk_get, JSVal.isArray, hg, hm, fromEntries]

/-- Witness for C8 with a store that accepts empty batches. -/
theorem kv_bulk_get_empty_keys_witness :
    emptyGet (.vArr []) (optsObj (.vStr "text")) = .ok [] ∧
    kv_bulk_get (.handle ⟨some emptyGet, some emptyGet⟩) (.vArr [])
        (.vStr "text") false =
      (.ok [], [.callGet (.vArr []) (optsObj (.vStr "text"))]) ∧
    kv_bulk_get (.handle ⟨some emptyGet, some emptyGet⟩) (.vArr [])
        (.vStr "text") true =
      (.ok [], [.callGetWithMetadata (.vArr []) (optsObj (.vStr "text"))]) :=
  ⟨rfl,
   (kv_bulk_get_empty_keys emptyGet emptyGet (.vStr "text") rfl rfl).1,
   (kv_bulk_get_empty_keys emptyGet emptyGet (.vStr "text") rfl rfl).2⟩

/-- Claim C9: on every input, the operation issues at most one store call,
and any call it issues carries the caller's `keys` value verbatim (the
embedding is a pure function of its arguments: the source neither mutates
its inputs nor keeps state across calls, and the result is built fresh by
`fromEntries`). -/
theorem kv_bulk_get_single_call_frame (kv : KVArg) (keys ty : JSVal) (wm : Bool) :
    (kv_bulk_get kv keys ty wm).2 = [] ∨
    (kv_bulk_get kv keys ty wm).2 = [.callGet keys (optsObj ty)] ∨
    (kv_bulk_get kv keys ty wm).2 = [.callGetWithMetadata keys (optsObj ty)] := by
  rcases kv with _ | ⟨g, m⟩
  · left; rfl
  · rcases g with _ | get
    · left; rfl
    · cases hA : keys.isArray
      · left; simp [kv_bulk_get, hA]
      · cases wm
        · cases hr : get keys (optsObj ty) <;>
            · right; left; simp [kv_bulk_get, hA, hr]
        · rcases m with _ | gwm
          · left; simp [kv_bulk_get, hA]
          · cases hr : gwm keys (optsObj ty) <;>
              · right; right; simp [kv_bulk_get, hA, hr]

/-- Claim C10: `decodeFormat` is never validated — any value, in or out of
the set {text, json, binary}, is forwarded verbatim as the `type` field of
the options object; omitted arguments default to `"text"` and
`withMetadata=false`; on a validated handle and array keys, exactly one
store call is issued per call — the combined read when the flag is set, the
value-only read otherwise — and any error is the store's own. -/
theorem kv_bulk_get_decode_format_forwarded
    (kv : KVArg) (keys ty : JSVal) (get gwm : BulkRead) (ks : List JSVal) :
    kv_bulk_get kv keys = kv_bulk_get kv keys (.vStr "text") false ∧
    kv_bulk_get (.handle ⟨some get, some gwm⟩) (.vArr ks) ty false =
      ((get (.vArr ks) (optsObj ty)).map fromEntries,
       [.callGet (.vArr ks) (optsObj ty)]) ∧
    kv_bulk_get (.handle ⟨some get, some gwm⟩) (.vArr ks) ty true =
      ((gwm (.vArr ks) (optsObj ty)).map fromEntries,
       [.callGetWithMetadata (.vArr ks) (optsObj ty)]) := by
  refine ⟨rfl, ?_, ?_⟩
  · cases h : get (.vArr ks) (optsObj ty) <;>
      simp [kv_bulk_get, JSVal.isArray, h, Except.map]
  · cases h : gwm (.vArr ks) (optsObj ty) <;>
      simp [kv_bulk_get, JSVal.isArray, h, Except.map]

end KVBulk
